import Mathlib

/-!
Verification of the hp-admin-crypto authentication sidecar
(`server/src/main.rs`) against its specification.

The Rust handler is shallowly embedded: each Rust function becomes a Lean
definition of the same name; bytes are `Nat` (values < 256 where it
matters); a Rust `panic!`/`unwrap` abort is the explicit outcome
`Outcome.aborted`; the Ed25519 primitive `PublicKey::verify` from the
external `ed25519_dalek` crate is a parameter `edVerify` taking the decoded
signature bytes and the payload bytes, so theorems hold for every
cryptographic checker (the loaded public key is baked into it, matching the
process-wide immutable `HP_PUBLIC_KEY`).
-/

/-- Standard base64 alphabet, index to character (`A-Za-z0-9+/`), as used by
the `base64` crate's `STANDARD_NO_PAD` config. Indices ≥ 64 do not occur for
in-range six-bit values. -/
def b64EncodeChar (i : Nat) : Char :=
  if i < 26 then Char.ofNat (i + 65)
  else if i < 52 then Char.ofNat (i + 71)
  else if i < 62 then Char.ofNat (i - 4)
  else if i = 62 then Char.ofNat 43
  else Char.ofNat 47

/-- Standard base64 alphabet, character to six-bit index; `none` on any
character outside the alphabet (including the padding character, which the
no-padding config rejects). -/
def b64DecodeChar (c : Char) : Option Nat :=
  if 65 ≤ c.toNat ∧ c.toNat ≤ 90 then some (c.toNat - 65)
  else if 97 ≤ c.toNat ∧ c.toNat ≤ 122 then some (c.toNat - 71)
  else if 48 ≤ c.toNat ∧ c.toNat ≤ 57 then some (c.toNat + 4)
  else if c.toNat = 43 then some 62
  else if c.toNat = 47 then some 63
  else none

/-- Unpadded standard base64 encoding of a byte sequence: three-byte groups
become four characters; a final group of two bytes becomes three characters
and a final single byte becomes two, with no padding emitted. -/
def b64Encode : List Nat → List Char
  | a :: b :: c :: rest =>
    b64EncodeChar (a / 4) :: b64EncodeChar ((a % 4) * 16 + b / 16) ::
    b64EncodeChar ((b % 16) * 4 + c / 64) :: b64EncodeChar (c % 64) ::
    b64Encode rest
  | [a, b] =>
    [b64EncodeChar (a / 4), b64EncodeChar ((a % 4) * 16 + b / 16),
     b64EncodeChar ((b % 16) * 4)]
  | [a] => [b64EncodeChar (a / 4), b64EncodeChar ((a % 4) * 16)]
  | [] => []

/-- Unpadded standard base64 decoding (the `base64` crate's
`decode_config(_, STANDARD_NO_PAD)`): four-character groups become three
bytes; a trailing group of three characters becomes two bytes and of two
characters one byte; a trailing single character or any character outside
the alphabet is an error. -/
def b64Decode : List Char → Option (List Nat)
  | c1 :: c2 :: c3 :: c4 :: rest =>
    match b64DecodeChar c1, b64DecodeChar c2, b64DecodeChar c3,
          b64DecodeChar c4 with
    | some v1, some v2, some v3, some v4 =>
      (b64Decode rest).map (fun tl =>
        (v1 * 4 + v2 / 16) :: ((v2 % 16) * 16 + v3 / 4) ::
        ((v3 % 4) * 64 + v4) :: tl)
    | _, _, _, _ => none
  | [c1, c2, c3] =>
    match b64DecodeChar c1, b64DecodeChar c2, b64DecodeChar c3 with
    | some v1, some v2, some v3 =>
      some [v1 * 4 + v2 / 16, (v2 % 16) * 16 + v3 / 4]
    | _, _, _ => none
  | [c1, c2] =>
    match b64DecodeChar c1, b64DecodeChar c2 with
    | some v1, some v2 => some [v1 * 4 + v2 / 16]
    | _, _ => none
  | [_] => none
  | [] => some []

/-- Base64-decode a string (characters of the string, in order). -/
def b64DecodeStr (s : String) : Option (List Nat) :=
  b64Decode s.data

/-- Base64-encode bytes into a string. -/
def b64EncodeStr (bs : List Nat) : String :=
  String.mk (b64Encode bs)

/-- UTF-8 encoding of one character (Rust's `str::as_bytes` view of it). -/
def utf8EncodeChar (c : Char) : List Nat :=
  let n := c.toNat
  if n < 128 then [n]
  else if n < 2048 then [192 + n / 64, 128 + n % 64]
  else if n < 65536 then [224 + n / 4096, 128 + (n / 64) % 64, 128 + n % 64]
  else [240 + n / 262144, 128 + (n / 4096) % 64, 128 + (n / 64) % 64,
        128 + n % 64]

/-- UTF-8 bytes of a string: Rust's `String::as_bytes` / `str::as_bytes`. -/
def strBytes (s : String) : List Nat :=
  (s.data.map utf8EncodeChar).flatten

/-- Whether a byte is a UTF-8 continuation byte (`10xxxxxx`). -/
def utf8Cont (b : Nat) : Bool :=
  128 ≤ b && b ≤ 191

/-- Strict UTF-8 decoding of a byte sequence into characters, as Rust's
`String::from_utf8`: rejects overlong forms, surrogate code points and
out-of-range sequences, per the standard lead-byte/continuation ranges. -/
def utf8Decode : List Nat → Option (List Char)
  | [] => some []
  | b :: rest =>
    if b < 128 then
      (utf8Decode rest).map (fun tl => Char.ofNat b :: tl)
    else if 194 ≤ b ∧ b ≤ 223 then
      match rest with
      | b2 :: rest2 =>
        if utf8Cont b2 then
          (utf8Decode rest2).map (fun tl =>
            Char.ofNat ((b - 192) * 64 + (b2 - 128)) :: tl)
        else none
      | [] => none
    else if 224 ≤ b ∧ b ≤ 239 then
      match rest with
      | b2 :: b3 :: rest3 =>
        let lo2 := if b = 224 then 160 else 128
        let hi2 := if b = 237 then 159 else 191
        if (lo2 ≤ b2 && b2 ≤ hi2) && utf8Cont b3 then
          (utf8Decode rest3).map (fun tl =>
            Char.ofNat ((b - 224) * 4096 + (b2 - 128) * 64 + (b3 - 128)) :: tl)
        else none
      | _ => none
    else if 240 ≤ b ∧ b ≤ 244 then
      match rest with
      | b2 :: b3 :: b4 :: rest4 =>
        let lo2 := if b = 240 then 144 else 128
        let hi2 := if b = 244 then 143 else 191
        if (lo2 ≤ b2 && b2 ≤ hi2) && (utf8Cont b3 && utf8Cont b4) then
          (utf8Decode rest4).map (fun tl =>
            Char.ofNat ((b - 240) * 262144 + (b2 - 128) * 4096 +
              (b3 - 128) * 64 + (b4 - 128)) :: tl)
        else none
      | _ => none
    else none

/-- Whether a byte may appear in a header value shown as a string: the
`http` crate's `is_visible_ascii` used by `HeaderValue::to_str`. -/
def visibleAscii (b : Nat) : Bool :=
  (32 ≤ b && b < 127) || b == 9

/-- The `http` crate's `HeaderValue::to_str`: succeeds iff every byte is
visible ASCII (or tab), yielding those bytes read as characters; `none`
models the `Err` that the handler `unwrap`s. -/
def headerToStr (v : List Nat) : Option String :=
  if v.all visibleAscii then some (String.mk (v.map Char.ofNat)) else none

/-- The two headers the handler reads, each an optional raw byte value
(`HeaderMap` restricted to the keys the program looks up). -/
structure HeaderMap where
  x_original_uri : Option (List Nat)
  x_hpos_admin_signature : Option (List Nat)
deriving DecidableEq

/-- An incoming HTTP request as the handler observes it: its own path,
method text, the two relevant headers, and the raw body bytes. -/
structure Req where
  path : String
  method : String
  headers : HeaderMap
  body : List Nat
deriving DecidableEq

/-- An HTTP response: numeric status and body text. -/
structure HttpResponse where
  status : Nat
  body : String
deriving DecidableEq

/-- Result of handling one request: either a response, or an abort of the
request's handling (a Rust `panic!` / `unwrap` on `Err`). -/
inductive Outcome where
  | response : HttpResponse → Outcome
  | aborted : Outcome
deriving DecidableEq

/-- ASCII lower-casing of a string, modelling Rust's `str::to_lowercase`
on the ASCII strings that HTTP method names are. -/
def asciiLower (s : String) : String :=
  String.mk (s.data.map (fun c =>
    if 65 ≤ c.toNat ∧ c.toNat ≤ 90 then Char.ofNat (c.toNat + 32) else c))

/-- One hex digit of `serde_json`'s lowercase control-character escapes. -/
def hexDigit (n : Nat) : Char :=
  if n < 10 then Char.ofNat (48 + n) else Char.ofNat (87 + n)

/-- JSON string escaping as `serde_json`'s serializer performs it: quote and
backslash get two-character escapes, the control characters 8, 9, 10, 12, 13
their short forms, other control characters a lowercase `\u00XX` escape, and
everything else passes through. -/
def jsonEscapeChar (c : Char) : List Char :=
  if c.toNat = 34 then [Char.ofNat 92, Char.ofNat 34]
  else if c.toNat = 92 then [Char.ofNat 92, Char.ofNat 92]
  else if c.toNat = 8 then [Char.ofNat 92, Char.ofNat 98]
  else if c.toNat = 9 then [Char.ofNat 92, Char.ofNat 116]
  else if c.toNat = 10 then [Char.ofNat 92, Char.ofNat 110]
  else if c.toNat = 12 then [Char.ofNat 92, Char.ofNat 102]
  else if c.toNat = 13 then [Char.ofNat 92, Char.ofNat 114]
  else if c.toNat < 32 then
    [Char.ofNat 92, Char.ofNat 117, Char.ofNat 48, Char.ofNat 48,
     hexDigit (c.toNat / 16), hexDigit (c.toNat % 16)]
  else [c]

/-- JSON string escaping lifted to strings. -/
def jsonEscape (s : String) : String :=
  String.mk ((s.data.map jsonEscapeChar).flatten)

/-- Modelled from the spec: the serialization order of the `json!` object in
`create_payload` is decided by the `serde_json` feature selection in the
crate's `Cargo.toml`, which is not among the available sources; per the
spec the three fields appear in the fixed structural order `method`, `uri`,
`body`. The function embeds Rust's `create_payload`: a compact JSON object
with `method` lower-cased and each field JSON-escaped, serialized to a
string. -/
def create_payload (method uri body_string : String) : String :=
  "\x7b\"method\":\"" ++ jsonEscape (asciiLower method) ++
  "\",\"uri\":\"" ++ jsonEscape uri ++
  "\",\"body\":\"" ++ jsonEscape body_string ++ "\"\x7d"

/-- Embeds Rust's `verify_request`. `edVerify` stands for
`ed25519_dalek::PublicKey::verify` with the loaded key, taking the decoded
signature bytes and the payload bytes. `some b` is a normal boolean return;
`none` is the `unwrap` panic when the signature header value is not visible
ASCII. `Signature::from_bytes` succeeds exactly on 64-byte inputs. -/
def verify_request (edVerify : List Nat → List Nat → Bool)
    (payload : String) (headers : HeaderMap) : Option Bool :=
  match headers.x_hpos_admin_signature with
  | none => some false
  | some v =>
    match headerToStr v with
    | none => none
    | some signature_base64 =>
      match b64DecodeStr signature_base64 with
      | none => some false
      | some signature_vec =>
        if signature_vec.length = 64 then
          some (edVerify signature_vec (strBytes payload))
        else some false

/-- Embeds Rust's `respond_success`: `true` maps to an empty-bodied `200 OK`
and `false` to an empty-bodied `401 Unauthorized`. -/
def respond_success (is_verified : Bool) : HttpResponse :=
  if is_verified then ⟨200, ""⟩ else ⟨401, ""⟩

/-- Embeds Rust's `create_response`: on the recognized path `/` it extracts
`x-original-uri` (panicking when absent or not visible ASCII), decodes the
body as UTF-8 (panicking on failure), builds the canonical payload and maps
the verification result through `respond_success`; any other path is
answered as a failed verification. -/
def create_response (edVerify : List Nat → List Nat → Bool)
    (req : Req) : Outcome :=
  if req.path = "/" then
    match req.headers.x_original_uri with
    | none => Outcome.aborted
    | some v =>
      match headerToStr v with
      | none => Outcome.aborted
      | some req_uri =>
        match utf8Decode req.body with
        | none => Outcome.aborted
        | some body_chars =>
          let payload := create_payload req.method req_uri
            (String.mk body_chars)
          match verify_request edVerify payload req.headers with
          | none => Outcome.aborted
          | some is_verified => Outcome.response (respond_success is_verified)
  else Outcome.response (respond_success false)

/-- Decoding inverts encoding on each six-bit value. -/
theorem b64DecodeChar_encode :
    ∀ i < 64, b64DecodeChar (b64EncodeChar i) = some i := by decide

/-- Base64 decoding inverts base64 encoding on byte sequences. -/
theorem b64_roundtrip : ∀ bs : List Nat, (∀ x ∈ bs, x < 256) →
    b64Decode (b64Encode bs) = some bs := by
  intro bs
  induction bs using b64Encode.induct with
  | case1 a b c rest ih =>
    intro h
    have ha : a < 256 := h a (by simp)
    have hb : b < 256 := h b (by simp)
    have hc : c < 256 := h c (by simp)
    rw [b64Encode, b64Decode,
      b64DecodeChar_encode _ (by omega), b64DecodeChar_encode _ (by omega),
      b64DecodeChar_encode _ (by omega), b64DecodeChar_encode _ (by omega)]
    rw [ih (fun x hx => h x (by simp [hx]))]
    simp only [Option.map_some', Option.some.injEq, List.cons.injEq,
      eq_self_iff_true, and_true]
    omega
  | case2 a b =>
    intro h
    have ha : a < 256 := h a (by simp)
    have hb : b < 256 := h b (by simp)
    rw [b64Encode, b64Decode,
      b64DecodeChar_encode _ (by omega), b64DecodeChar_encode _ (by omega),
      b64DecodeChar_encode _ (by omega)]
    simp only [Option.some.injEq, List.cons.injEq, eq_self_iff_true,
      and_true]
    omega
  | case3 a =>
    intro h
    have ha : a < 256 := h a (by simp)
    rw [b64Encode, b64Decode,
      b64DecodeChar_encode _ (by omega), b64DecodeChar_encode _ (by omega)]
    simp only [Option.some.injEq, List.cons.injEq, eq_self_iff_true,
      and_true]
    omega
  | case4 => intro h; rfl

/-- Every base64 alphabet character is visible ASCII, is its own single
UTF-8 byte, and survives the code-point round trip. -/
theorem b64Char_props : ∀ i < 64,
    visibleAscii (b64EncodeChar i).toNat = true ∧
    utf8EncodeChar (b64EncodeChar i) = [(b64EncodeChar i).toNat] ∧
    Char.ofNat (b64EncodeChar i).toNat = b64EncodeChar i := by decide

/-- Every character of a base64 encoding comes from the 64-entry alphabet. -/
theorem b64Encode_mem : ∀ bs : List Nat, (∀ x ∈ bs, x < 256) →
    ∀ c ∈ b64Encode bs, ∃ i, i < 64 ∧ c = b64EncodeChar i := by
  intro bs
  induction bs using b64Encode.induct with
  | case1 a b c rest ih =>
    intro h ch hch
    have ha : a < 256 := h a (by simp)
    have hb : b < 256 := h b (by simp)
    have hc : c < 256 := h c (by simp)
    rw [b64Encode] at hch
    simp only [List.mem_cons] at hch
    rcases hch with h1 | h1 | h1 | h1 | h1
    · exact ⟨a / 4, by omega, h1⟩
    · exact ⟨(a % 4) * 16 + b / 16, by omega, h1⟩
    · exact ⟨(b % 16) * 4 + c / 64, by omega, h1⟩
    · exact ⟨c % 64, by omega, h1⟩
    · exact ih (fun x hx => h x (by simp [hx])) ch h1
  | case2 a b =>
    intro h ch hch
    have ha : a < 256 := h a (by simp)
    have hb : b < 256 := h b (by simp)
    rw [b64Encode] at hch
    simp only [List.mem_cons, List.not_mem_nil, or_false] at hch
    rcases hch with h1 | h1 | h1
    · exact ⟨a / 4, by omega, h1⟩
    · exact ⟨(a % 4) * 16 + b / 16, by omega, h1⟩
    · exact ⟨(b % 16) * 4, by omega, h1⟩
  | case3 a =>
    intro h ch hch
    have ha : a < 256 := h a (by simp)
    rw [b64Encode] at hch
    simp only [List.mem_cons, List.not_mem_nil, or_false] at hch
    rcases hch with h1 | h1
    · exact ⟨a / 4, by omega, h1⟩
    · exact ⟨(a % 4) * 16, by omega, h1⟩
  | case4 =>
    intro h ch hch
    rw [b64Encode] at hch
    exact absurd hch (List.not_mem_nil ch)

/-- Characters drawn from the base64 alphabet UTF-8-encode to their code
points, which are all visible ASCII and decode back to the same characters. -/
theorem headerToStr_ascii : ∀ cs : List Char,
    (∀ c ∈ cs, ∃ i, i < 64 ∧ c = b64EncodeChar i) →
    strBytes (String.mk cs) = cs.map Char.toNat ∧
    (cs.map Char.toNat).all visibleAscii = true ∧
    (cs.map Char.toNat).map Char.ofNat = cs := by
  intro cs
  induction cs with
  | nil => intro h; exact ⟨rfl, rfl, rfl⟩
  | cons c cs ih =>
    intro h
    obtain ⟨i, hi, hc⟩ := h c (by simp)
    obtain ⟨hvis, henc, hofNat⟩ := b64Char_props i hi
    obtain ⟨ih1, ih2, ih3⟩ := ih (fun x hx => h x (by simp [hx]))
    refine ⟨?_, ?_, ?_⟩
    · show (utf8EncodeChar c :: cs.map utf8EncodeChar).flatten = _
      rw [List.flatten_cons]
      rw [show (utf8EncodeChar c) = [c.toNat] from hc ▸ henc]
      exact congrArg (c.toNat :: ·) ih1
    · simp only [List.map_cons, List.all_cons, Bool.and_eq_true]
      exact ⟨hc ▸ hvis, ih2⟩
    · simp only [List.map_cons]
      rw [show Char.ofNat c.toNat = c from hc ▸ hofNat]
      exact congrArg (c :: ·) ih3

/-- The base64 encoding of a byte sequence, sent as a header value, reads
back as exactly that string. -/
theorem headerToStr_b64EncodeStr (bs : List Nat) (h : ∀ x ∈ bs, x < 256) :
    headerToStr (strBytes (b64EncodeStr bs)) = some (b64EncodeStr bs) := by
  obtain ⟨h1, h2, h3⟩ := headerToStr_ascii (b64Encode bs) (b64Encode_mem bs h)
  unfold b64EncodeStr
  rw [h1]
  unfold headerToStr
  simp only [h2, if_true]
  rw [h3]

/-- C2: canonicalization is the fixed-order, method-lower-cased JSON
serialization; concretely, for method POST, uri /admin/reset and body
x-maps-to-1 the canonical payload is exactly the expected byte string. -/
theorem claim_c2_canonical_payload :
    create_payload "POST" "/admin/reset" "\x7b\"x\":1\x7d" =
    "\x7b\"method\":\"post\",\"uri\":\"/admin/reset\",\"body\":\"\x7b\\\"x\\\":1\x7d\"\x7d" := by
  decide

/-- C6: any request whose path is not the single recognized path yields the
same response as a failed verification, the empty-bodied 401. -/
theorem claim_c6_unrecognized_path_denied
    (edVerify : List Nat → List Nat → Bool) (req : Req)
    (h : req.path ≠ "/") :
    create_response edVerify req = Outcome.response (respond_success false) ∧
    respond_success false = ⟨401, ""⟩ := by
  constructor
  · unfold create_response
    rw [if_neg h]
  · rfl

/-- Witness for C6 at a concrete request with path /foo and a valid-looking
setup: the outcome is the 401 response. -/
theorem claim_c6_witness :
    create_response (fun _ _ => true)
      ⟨"/foo", "GET", ⟨some [47], some [65]⟩, []⟩ =
      Outcome.response ⟨401, ""⟩ := by
  have h := claim_c6_unrecognized_path_denied (fun _ _ => true)
    ⟨"/foo", "GET", ⟨some [47], some [65]⟩, []⟩ (by decide)
  rw [h.1, h.2]

/-- C7: canonicalization is case-insensitive in the method: methods equal
up to ASCII case give identical canonical payloads and hence identical
verification outcomes for any checker, headers and key. -/
theorem claim_c7_method_case_insensitive (m1 m2 u b : String)
    (h : asciiLower m1 = asciiLower m2) :
    create_payload m1 u b = create_payload m2 u b ∧
    ∀ (edVerify : List Nat → List Nat → Bool) (headers : HeaderMap),
      verify_request edVerify (create_payload m1 u b) headers =
      verify_request edVerify (create_payload m2 u b) headers := by
  have hp : create_payload m1 u b = create_payload m2 u b := by
    unfold create_payload
    rw [h]
  exact ⟨hp, fun edVerify headers => by rw [hp]⟩

/-- Witness for C7: POST and post canonicalize identically over a concrete
uri and body. -/
theorem claim_c7_witness :
    create_payload "POST" "/admin/reset" "\x7b\"x\":1\x7d" =
    create_payload "post" "/admin/reset" "\x7b\"x\":1\x7d" :=
  (claim_c7_method_case_insensitive "POST" "post" "/admin/reset"
    "\x7b\"x\":1\x7d" (by decide)).1

/-- C9: verification is a pure function of the canonical payload, the
signature header value and the checker (which carries the loaded key): two
header maps agreeing on the signature header verify identically, so nothing
else about the request influences the outcome and repeated invocations
agree. -/
theorem claim_c9_verification_pure
    (edVerify : List Nat → List Nat → Bool) (payload : String)
    (h1 h2 : HeaderMap)
    (h : h1.x_hpos_admin_signature = h2.x_hpos_admin_signature) :
    verify_request edVerify payload h1 = verify_request edVerify payload h2 := by
  unfold verify_request
  rw [h]

/-- Witness for C9: two header maps differing in the original-uri header
but agreeing on the signature header verify identically. -/
theorem claim_c9_witness :
    verify_request (fun _ _ => true) "payload" ⟨some [47], some [65, 65]⟩ =
    verify_request (fun _ _ => true) "payload" ⟨none, some [65, 65]⟩ :=
  claim_c9_verification_pure (fun _ _ => true) "payload"
    ⟨some [47], some [65, 65]⟩ ⟨none, some [65, 65]⟩ rfl

/-- C4: on the recognized path, a missing original-uri header or a body
that is not valid UTF-8 aborts the handling of the request (a panic),
rather than resolving to a DENY response. -/
theorem claim_c4_abort_on_missing_uri_or_bad_utf8
    (edVerify : List Nat → List Nat → Bool) (req : Req)
    (hpath : req.path = "/")
    (h : req.headers.x_original_uri = none ∨ utf8Decode req.body = none) :
    create_response edVerify req = Outcome.aborted := by
  unfold create_response
  rw [if_pos hpath]
  rcases h with h | h
  · simp only [h]
  · cases huri : req.headers.x_original_uri with
    | none => simp only [huri]
    | some v =>
      simp only [huri]
      cases hstr : headerToStr v with
      | none => simp only [hstr]
      | some u => simp only [hstr, h]

/-- Witness for C4: a concrete request to the recognized path with a
non-UTF-8 single-byte body and no original-uri header aborts. -/
theorem claim_c4_witness :
    create_response (fun _ _ => true) ⟨"/", "GET", ⟨none, none⟩, [255]⟩ =
      Outcome.aborted :=
  claim_c4_abort_on_missing_uri_or_bad_utf8 (fun _ _ => true)
    ⟨"/", "GET", ⟨none, none⟩, [255]⟩ rfl (Or.inl rfl)

/-- C10: a header value containing bytes that are not visible ASCII makes
the handler abort (the to-str unwrap panics) instead of denying: first for
the original-uri header, then for the signature header once the earlier
extractions succeeded. -/
theorem claim_c10_nonascii_header_aborts
    (edVerify : List Nat → List Nat → Bool) (req : Req)
    (hpath : req.path = "/") :
    (∀ v, req.headers.x_original_uri = some v → headerToStr v = none →
      create_response edVerify req = Outcome.aborted) ∧
    (∀ v u bchars w, req.headers.x_original_uri = some v →
      headerToStr v = some u → utf8Decode req.body = some bchars →
      req.headers.x_hpos_admin_signature = some w → headerToStr w = none →
      create_response edVerify req = Outcome.aborted) := by
  constructor
  · intro v hv hstr
    unfold create_response
    rw [if_pos hpath]
    simp only [hv, hstr]
  · intro v u bchars w hv hu hb hw hws
    unfold create_response
    rw [if_pos hpath]
    simp only [hv, hu, hb]
    unfold verify_request
    simp only [hw, hws]

/-- Witness for C10: a request to the recognized path whose original-uri
header value is the single byte 255 aborts. -/
theorem claim_c10_witness :
    create_response (fun _ _ => true) ⟨"/", "GET", ⟨some [255], none⟩, []⟩ =
      Outcome.aborted :=
  (claim_c10_nonascii_header_aborts (fun _ _ => true)
    ⟨"/", "GET", ⟨some [255], none⟩, []⟩ rfl).1 [255] rfl (by decide)

/-- C5 counterexample: the claim says a missing signature header yields
DENY regardless of all other inputs, but a request to the recognized path
missing both headers aborts (the original-uri unwrap panics first), and an
abort is not a response at all. -/
theorem claim_c5_counterexample :
    create_response (fun _ _ => false) ⟨"/", "GET", ⟨none, none⟩, []⟩ =
      Outcome.aborted ∧
    ∀ r : HttpResponse, Outcome.aborted ≠ Outcome.response r := by
  constructor
  · rfl
  · intro r h
    exact Outcome.noConfusion h

/-- C5 amended: on the recognized path, once the original-uri header is
present with a readable value and the body is valid UTF-8, a missing
signature header yields the empty-bodied 401, and a present, readable but
non-base64-decodable signature value also yields the empty-bodied 401
rather than a crash. -/
theorem claim_c5_missing_or_malformed_signature_denied
    (edVerify : List Nat → List Nat → Bool) (req : Req)
    (v : List Nat) (u : String) (bchars : List Char)
    (hpath : req.path = "/")
    (hv : req.headers.x_original_uri = some v)
    (hu : headerToStr v = some u)
    (hb : utf8Decode req.body = some bchars) :
    (req.headers.x_hpos_admin_signature = none →
      create_response edVerify req = Outcome.response ⟨401, ""⟩) ∧
    (∀ w s, req.headers.x_hpos_admin_signature = some w →
      headerToStr w = some s → b64DecodeStr s = none →
      create_response edVerify req = Outcome.response ⟨401, ""⟩) := by
  constructor
  · intro hsig
    unfold create_response
    rw [if_pos hpath]
    simp only [hv, hu, hb]
    unfold verify_request
    simp only [hsig]
    rfl
  · intro w s hw hws hdec
    unfold create_response
    rw [if_pos hpath]
    simp only [hv, hu, hb]
    unfold verify_request
    simp only [hw, hws, hdec]
    rfl

/-- Witness for the amended C5: a concrete request with readable
original-uri, empty body and no signature header is answered 401. -/
theorem claim_c5_witness :
    create_response (fun _ _ => false) ⟨"/", "GET", ⟨some [47, 120], none⟩, []⟩ =
      Outcome.response ⟨401, ""⟩ :=
  (claim_c5_missing_or_malformed_signature_denied (fun _ _ => false)
    ⟨"/", "GET", ⟨some [47, 120], none⟩, []⟩ [47, 120]
    (String.mk [Char.ofNat 47, Char.ofNat 120]) [] rfl rfl (by decide) rfl).1 rfl

/-- C3: the verifier answers true exactly when the signature header is
present with a readable text whose base64 decoding succeeds, the decoded
length is the fixed 64 bytes, and the cryptographic check of the payload
accepts; whenever a signature text exists the result is a plain boolean
(no error escapes), and a missing header answers false. -/
theorem claim_c3_verifier_strictly_binary
    (edVerify : List Nat → List Nat → Bool) (payload : String)
    (headers : HeaderMap) :
    (verify_request edVerify payload headers = some true ↔
      ∃ v s sig, headers.x_hpos_admin_signature = some v ∧
        headerToStr v = some s ∧ b64DecodeStr s = some sig ∧
        sig.length = 64 ∧ edVerify sig (strBytes payload) = true) ∧
    (∀ v s, headers.x_hpos_admin_signature = some v → headerToStr v = some s →
      verify_request edVerify payload headers = some true ∨
      verify_request edVerify payload headers = some false) ∧
    (headers.x_hpos_admin_signature = none →
      verify_request edVerify payload headers = some false) := by
  refine ⟨⟨?_, ?_⟩, ?_, ?_⟩
  · intro h
    unfold verify_request at h
    cases hsig : headers.x_hpos_admin_signature with
    | none =>
      simp only [hsig] at h
      exact absurd h (by decide)
    | some v =>
      simp only [hsig] at h
      cases hstr : headerToStr v with
      | none =>
        simp only [hstr] at h
        exact absurd h (by decide)
      | some s =>
        simp only [hstr] at h
        cases hdec : b64DecodeStr s with
        | none =>
          simp only [hdec] at h
          exact absurd h (by decide)
        | some sig =>
          simp only [hdec] at h
          by_cases hlen : sig.length = 64
          · rw [if_pos hlen] at h
            injection h with h
            exact ⟨v, s, sig, rfl, hstr, hdec, hlen, h⟩
          · rw [if_neg hlen] at h
            exact absurd h (by decide)
  · rintro ⟨v, s, sig, hsig, hstr, hdec, hlen, hver⟩
    unfold verify_request
    simp only [hsig, hstr, hdec]
    rw [if_pos hlen, hver]
  · intro v s hsig hstr
    unfold verify_request
    simp only [hsig, hstr]
    cases hdec : b64DecodeStr s with
    | none => exact Or.inr (by simp only [hdec])
    | some sig =>
      by_cases hlen : sig.length = 64
      · cases hver : edVerify sig (strBytes payload) with
        | false =>
          refine Or.inr ?_
          simp only [hdec]
          rw [if_pos hlen, hver]
        | true =>
          refine Or.inl ?_
          simp only [hdec]
          rw [if_pos hlen, hver]
      · refine Or.inr ?_
        simp only [hdec]
        rw [if_neg hlen]
  · intro hsig
    unfold verify_request
    simp only [hsig]

/-- Witness for C3: a header map without a signature header verifies to
the boolean false. -/
theorem claim_c3_witness :
    verify_request (fun _ _ => true) "x" ⟨some [47], none⟩ = some false :=
  (claim_c3_verifier_strictly_binary (fun _ _ => true) "x"
    ⟨some [47], none⟩).2.2 rfl

/-- C8: a response carries an empty body and its status is decided solely
by the verification boolean, 200 for accept and 401 for deny; every
response the handler produces is one of these two. -/
theorem claim_c8_responses_empty_200_or_401
    (edVerify : List Nat → List Nat → Bool) (req : Req) :
    (∀ b, (respond_success b).body = "" ∧
      (respond_success b).status = if b then 200 else 401) ∧
    (∀ r, create_response edVerify req = Outcome.response r →
      r = respond_success true ∨ r = respond_success false) := by
  constructor
  · intro b
    cases b
    · exact ⟨rfl, rfl⟩
    · exact ⟨rfl, rfl⟩
  · intro r hr
    unfold create_response at hr
    by_cases hp : req.path = "/"
    · rw [if_pos hp] at hr
      cases h1 : req.headers.x_original_uri with
      | none =>
        simp only [h1] at hr
        exact Outcome.noConfusion hr
      | some v =>
        simp only [h1] at hr
        cases h2 : headerToStr v with
        | none =>
          simp only [h2] at hr
          exact Outcome.noConfusion hr
        | some u =>
          simp only [h2] at hr
          cases h3 : utf8Decode req.body with
          | none =>
            simp only [h3] at hr
            exact Outcome.noConfusion hr
          | some bchars =>
            simp only [h3] at hr
            cases h4 : verify_request edVerify
                (create_payload req.method u (String.mk bchars)) req.headers with
            | none =>
              simp only [h4] at hr
              exact Outcome.noConfusion hr
            | some b =>
              simp only [h4] at hr
              injection hr with hr
              cases b
              · exact Or.inr hr.symm
              · exact Or.inl hr.symm
    · rw [if_neg hp] at hr
      injection hr with hr
      exact Or.inr hr.symm

/-- Witness for C8: at a concrete unrecognized-path request the produced
response is the deny response, and the accept response has empty body and
status 200. -/
theorem claim_c8_witness :
    ((respond_success true).body = "" ∧
      (respond_success true).status = if true then 200 else 401) ∧
    (respond_success false = respond_success true ∨
      respond_success false = respond_success false) :=
  ⟨(claim_c8_responses_empty_200_or_401 (fun _ _ => true)
      ⟨"/other", "GET", ⟨none, none⟩, []⟩).1 true,
   (claim_c8_responses_empty_200_or_401 (fun _ _ => true)
      ⟨"/other", "GET", ⟨none, none⟩, []⟩).2 (respond_success false)
      (by decide)⟩

/-- Decoding inverts encoding at the string level. -/
theorem b64DecodeStr_encodeStr (bs : List Nat) (h : ∀ x ∈ bs, x < 256) :
    b64DecodeStr (b64EncodeStr bs) = some bs :=
  b64_roundtrip bs h

/-- C1: a request to the recognized path carrying a readable original uri,
a valid-UTF-8 body, and as signature header the unpadded standard base64
encoding of a 64-byte signature that the cryptographic checker accepts for
the canonical payload of (method, uri, body), is answered with the
empty-bodied 200. The checker `edVerify` stands for Ed25519 verification
under the loaded public key, so a signature produced with the matching
private key satisfies `hcrypto` by the signature scheme's correctness. -/
theorem claim_c1_valid_signature_accepted
    (edVerify : List Nat → List Nat → Bool) (req : Req)
    (sig uv : List Nat) (u : String) (bchars : List Char)
    (hpath : req.path = "/")
    (huri : req.headers.x_original_uri = some uv)
    (hu : headerToStr uv = some u)
    (hbody : utf8Decode req.body = some bchars)
    (hsig : req.headers.x_hpos_admin_signature =
      some (strBytes (b64EncodeStr sig)))
    (hlen : sig.length = 64)
    (hbytes : ∀ x ∈ sig, x < 256)
    (hcrypto : edVerify sig
      (strBytes (create_payload req.method u (String.mk bchars))) = true) :
    create_response edVerify req = Outcome.response ⟨200, ""⟩ := by
  unfold create_response
  rw [if_pos hpath]
  simp only [huri, hu, hbody]
  unfold verify_request
  simp only [hsig, headerToStr_b64EncodeStr sig hbytes,
    b64DecodeStr_encodeStr sig hbytes]
  rw [if_pos hlen]
  simp only [hcrypto]
  rfl

/-- Witness for C1: a concrete accepting checker and request. The checker
accepts exactly the all-zero 64-byte signature; the request carries that
signature base64-encoded in its header, original uri /x and an empty body,
and is answered 200. -/
theorem claim_c1_witness :
    create_response (fun s _ => s == List.replicate 64 0)
      ⟨"/", "POST",
        ⟨some [47, 120], some (strBytes (b64EncodeStr (List.replicate 64 0)))⟩,
        []⟩ =
      Outcome.response ⟨200, ""⟩ :=
  claim_c1_valid_signature_accepted (fun s _ => s == List.replicate 64 0)
    ⟨"/", "POST",
      ⟨some [47, 120], some (strBytes (b64EncodeStr (List.replicate 64 0)))⟩,
      []⟩
    (List.replicate 64 0) [47, 120] (String.mk [Char.ofNat 47, Char.ofNat 120])
    [] rfl rfl (by decide) rfl rfl (by decide) (by decide) (by decide)
